import Mathlib

/-!
# Verification of the zeroclaw MCP protocol engine

A shallow embedding of the JSON-RPC message model (`src/mcp/types.rs`),
the MCP server dispatch engine (`src/mcp/server.rs`) and the MCP client
(`src/mcp/client.rs`), together with theorems settling the specified
properties of the engine.

JSON documents are modelled by the inductive `Json` below; `serde_json`
serialization/deserialization of the wire structs is embedded as explicit
encoder/decoder functions that mirror the `serde` derive semantics of each
struct (required fields must be present; `Option` fields treat a missing
key and an explicit `null` as `none`; fields marked
`skip_serializing_if = "Option::is_none"` are omitted from the encoding
when `none`). Numbers are modelled as `Int`: every number the engine
itself produces (correlation ids, error codes) is integral.
-/

/-- A JSON document (`serde_json::Value`), with the constructors named
after the `Value` variants. An object keeps its entries as an
association list in insertion order; the documents this engine builds
never repeat a key. -/
inductive Json where
  | null
  | boolean (b : Bool)
  | number (n : Int)
  | string (s : String)
  | array (items : List Json)
  | object (entries : List (String × Json))
deriving Repr

namespace Json

mutual

/-- Structural equality of JSON documents. -/
def jsonEq : Json → Json → Bool
  | .null, .null => true
  | .boolean x, .boolean y => x == y
  | .number x, .number y => x == y
  | .string x, .string y => x == y
  | .array u, .array v => jsonEqItems u v
  | .object u, .object v => jsonEqEntries u v
  | _, _ => false

/-- `jsonEq` on the item lists of two arrays, position by position. -/
def jsonEqItems : List Json → List Json → Bool
  | [], [] => true
  | u :: us, v :: vs => jsonEq u v && jsonEqItems us vs
  | _, _ => false

/-- `jsonEq` on the entry lists of two objects: keys and values must
agree pairwise, in order. -/
def jsonEqEntries : List (String × Json) → List (String × Json) → Bool
  | [], [] => true
  | e :: es, f :: fs => e.1 == f.1 && (jsonEq e.2 f.2 && jsonEqEntries es fs)
  | _, _ => false

end

mutual

theorem jsonEq_refl : ∀ j : Json, jsonEq j j = true
  | .null => rfl
  | .boolean _ => by simp [jsonEq]
  | .number _ => by simp [jsonEq]
  | .string _ => by simp [jsonEq]
  | .array u => by simp [jsonEq, jsonEqItems_refl u]
  | .object u => by simp [jsonEq, jsonEqEntries_refl u]

theorem jsonEqItems_refl : ∀ us : List Json, jsonEqItems us us = true
  | [] => rfl
  | u :: us => by simp [jsonEqItems, jsonEq_refl u, jsonEqItems_refl us]

theorem jsonEqEntries_refl :
    ∀ es : List (String × Json), jsonEqEntries es es = true
  | [] => rfl
  | e :: es => by
      simp [jsonEqEntries, jsonEq_refl e.2, jsonEqEntries_refl es]

end

mutual

theorem jsonEq_eq : ∀ a b : Json, jsonEq a b = true → a = b
  | .null, .null, _ => rfl
  | .boolean _, .boolean _, h => by simpa [jsonEq] using h
  | .number _, .number _, h => by simpa [jsonEq] using h
  | .string _, .string _, h => by simpa [jsonEq] using h
  | .array u, .array v, h => by
      rw [jsonEqItems_eq u v (by simpa [jsonEq] using h)]
  | .object u, .object v, h => by
      rw [jsonEqEntries_eq u v (by simpa [jsonEq] using h)]

theorem jsonEqItems_eq : ∀ us vs : List Json, jsonEqItems us vs = true → us = vs
  | [], [], _ => rfl
  | [], _ :: _, h => by simp [jsonEqItems] at h
  | _ :: _, [], h => by simp [jsonEqItems] at h
  | u :: us, v :: vs, h => by
      simp only [jsonEqItems, Bool.and_eq_true] at h
      rw [jsonEq_eq u v h.1, jsonEqItems_eq us vs h.2]

theorem jsonEqEntries_eq :
    ∀ es fs : List (String × Json), jsonEqEntries es fs = true → es = fs
  | [], [], _ => rfl
  | [], _ :: _, h => by simp [jsonEqEntries] at h
  | _ :: _, [], h => by simp [jsonEqEntries] at h
  | e :: es, f :: fs, h => by
      simp only [jsonEqEntries, Bool.and_eq_true] at h
      obtain ⟨hk, hv, hrest⟩ := h
      have hfst : e.1 = f.1 := by simpa using hk
      have hsnd : e.2 = f.2 := jsonEq_eq e.2 f.2 hv
      have hef : e = f := Prod.ext hfst hsnd
      rw [hef, jsonEqEntries_eq es fs hrest]

end

instance : DecidableEq Json := fun a b =>
  if h : jsonEq a b = true then .isTrue (jsonEq_eq a b h)
  else .isFalse (fun hab => h (hab ▸ jsonEq_refl a))

/-- Look up a key in a JSON object (`serde_json` object indexing). Returns
`none` when the value is not an object or the key is absent. -/
def getField : Json → String → Option Json
  | .object entries, key => entries.lookup key
  | _, _ => none

end Json

/-! ## Wire envelope types (`src/mcp/types.rs`) -/

/-! Reserved and protocol-specific JSON-RPC error codes
(`types.rs::error_codes`). -/

namespace error_codes

def PARSE_ERROR : Int := -32700

def INVALID_REQUEST : Int := -32600

def METHOD_NOT_FOUND : Int := -32601

def INVALID_PARAMS : Int := -32602

def INTERNAL_ERROR : Int := -32603

def SERVER_ERROR : Int := -32000

def TOOL_NOT_FOUND : Int := -32001

def RESOURCE_NOT_FOUND : Int := -32002

end error_codes

/-- `types.rs::McpError` — the JSON-RPC error object. -/
structure McpError where
  code : Int
  message : String
  data : Option Json
deriving Repr, DecidableEq

/-- `McpError::new` (the `data` field starts out `None`). -/
def McpError.new (code : Int) (message : String) : McpError :=
  { code := code, message := message, data := none }

/-- `types.rs::JsonRpcRequest`. The `id` is an arbitrary JSON scalar and
is a mandatory field of the struct. -/
structure JsonRpcRequest where
  jsonrpc : String
  id : Json
  method : String
  params : Option Json
deriving Repr, DecidableEq

/-- `JsonRpcRequest::new` — fills in `jsonrpc: "2.0"`. -/
def JsonRpcRequest.new (id : Json) (method : String) (params : Option Json) :
    JsonRpcRequest :=
  { jsonrpc := "2.0", id := id, method := method, params := params }

/-- `types.rs::JsonRpcResponse`. -/
structure JsonRpcResponse where
  jsonrpc : String
  id : Json
  result : Option Json
  error : Option McpError
deriving Repr, DecidableEq

/-- `JsonRpcResponse::success`. -/
def JsonRpcResponse.success (id : Json) (result : Json) : JsonRpcResponse :=
  { jsonrpc := "2.0", id := id, result := some result, error := none }

/-- `JsonRpcResponse::error` (named `mkError` here because the source name
collides with the struct field `error`). -/
def JsonRpcResponse.mkError (id : Json) (error : McpError) : JsonRpcResponse :=
  { jsonrpc := "2.0", id := id, result := none, error := some error }

/-- `types.rs::JsonRpcNotification` — a request envelope without an `id`. -/
structure JsonRpcNotification where
  jsonrpc : String
  method : String
  params : Option Json
deriving Repr, DecidableEq

/-- `JsonRpcNotification::new`. -/
def JsonRpcNotification.new (method : String) (params : Option Json) :
    JsonRpcNotification :=
  { jsonrpc := "2.0", method := method, params := params }

/-! ## Protocol payload types (`src/mcp/types.rs`) -/

/-- `types.rs::ToolsCapability` (client side). -/
structure ToolsCapability where
  list_changed : Option Bool
deriving Repr, DecidableEq

/-- `types.rs::ResourcesCapability` (client side). -/
structure ResourcesCapability where
  subscribe : Option Bool
  list_changed : Option Bool
deriving Repr, DecidableEq

/-- `types.rs::ClientCapabilities`. -/
structure ClientCapabilities where
  tools : Option ToolsCapability
  resources : Option ResourcesCapability
deriving Repr, DecidableEq

/-- `types.rs::ToolsServerCapability`. -/
structure ToolsServerCapability where
  list_changed : Option Bool
deriving Repr, DecidableEq

/-- `types.rs::ResourcesServerCapability`. -/
structure ResourcesServerCapability where
  subscribe : Option Bool
  list_changed : Option Bool
deriving Repr, DecidableEq

/-- `types.rs::ServerCapabilities`. -/
structure ServerCapabilities where
  tools : Option ToolsServerCapability
  resources : Option ResourcesServerCapability
deriving Repr, DecidableEq

/-- `types.rs::ClientInfo`. -/
structure ClientInfo where
  name : String
  version : String
deriving Repr, DecidableEq

/-- `types.rs::ServerInfo`. -/
structure ServerInfo where
  name : String
  version : String
deriving Repr, DecidableEq

/-- `types.rs::InitializeResult`. -/
structure InitializeResult where
  protocol_version : String
  capabilities : ServerCapabilities
  server_info : ServerInfo
deriving Repr, DecidableEq

/-- `types.rs::ToolDefinition`. -/
structure ToolDefinition where
  name : String
  description : String
  input_schema : Json
deriving Repr, DecidableEq

/-- `ToolDefinition::new`. -/
def ToolDefinition.new (name description : String) (input_schema : Json) :
    ToolDefinition :=
  { name := name, description := description, input_schema := input_schema }

/-- `types.rs::ToolsListResult`. -/
structure ToolsListResult where
  tools : List ToolDefinition
  next_cursor : Option String
deriving Repr, DecidableEq

/-- `types.rs::ToolsCallRequestParams` (the source field `_meta` is named
`meta` here; its JSON key stays `"_meta"`). -/
structure ToolsCallRequestParams where
  name : String
  arguments : Json
  meta : Option Json
deriving Repr, DecidableEq

/-- `types.rs::ResourceContent`. -/
structure ResourceContent where
  uri : String
  mime_type : Option String
  text : Option String
  blob : Option String
deriving Repr, DecidableEq

/-- `types.rs::ContentBlock` — internally tagged (`#[serde(tag = "type")]`)
content union. -/
inductive ContentBlock where
  | Text (text : String)
  | Image (data : String) (mime_type : String)
  | Resource (resource : ResourceContent)
deriving Repr, DecidableEq

/-- `types.rs::ToolsCallResult`. -/
structure ToolsCallResult where
  content : List ContentBlock
  is_error : Option Bool
deriving Repr, DecidableEq

/-- `ToolsCallResult::text` — one text block, `is_error` unset. -/
def ToolsCallResult.text (content : String) : ToolsCallResult :=
  { content := [ContentBlock.Text content], is_error := none }

/-- `ToolsCallResult::error` — one text block, `is_error: Some(true)`. -/
def ToolsCallResult.error (content : String) : ToolsCallResult :=
  { content := [ContentBlock.Text content], is_error := some true }

/-- `types.rs::ResourceDefinition`. -/
structure ResourceDefinition where
  uri : String
  name : String
  description : Option String
  mime_type : Option String
  size : Option Int
deriving Repr, DecidableEq

/-- `ResourceDefinition::new` — optional fields start out `None`. -/
def ResourceDefinition.new (uri name : String) : ResourceDefinition :=
  { uri := uri, name := name, description := none, mime_type := none,
    size := none }

/-- `ResourceDefinition::with_description`. -/
def ResourceDefinition.with_description (r : ResourceDefinition)
    (description : String) : ResourceDefinition :=
  { r with description := some description }

/-- `ResourceDefinition::with_mime_type`. -/
def ResourceDefinition.with_mime_type (r : ResourceDefinition)
    (mime_type : String) : ResourceDefinition :=
  { r with mime_type := some mime_type }

/-- `types.rs::ResourcesListResult`. -/
structure ResourcesListResult where
  resources : List ResourceDefinition
  next_cursor : Option String
deriving Repr, DecidableEq

/-- `types.rs::ResourcesReadRequestParams` (the source field `_meta` is
named `meta` here; its JSON key stays `"_meta"`). -/
structure ResourcesReadRequestParams where
  uri : String
  meta : Option Json
deriving Repr, DecidableEq

/-- `types.rs::ResourcesReadResult`. -/
structure ResourcesReadResult where
  contents : List ResourceContent
deriving Repr, DecidableEq

/-! ## Serialization (`serde::Serialize` derives)

Each `toJson` mirrors the serde-derived serializer of the corresponding
struct: fields appear in declaration order under their source JSON keys;
fields marked `skip_serializing_if = "Option::is_none"` are omitted when
`none`; unmarked `Option` fields serialize `none` as `null`. -/

/-- Emit an optional field marked `skip_serializing_if`: absent when
`none`. -/
def Json.skipNoneField (key : String) : Option Json → List (String × Json)
  | none => []
  | some v => [(key, v)]

/-- Serialize an unmarked `Option` field: `none` becomes `null`. -/
def Json.nullableField (key : String) : Option Json → List (String × Json)
  | none => [(key, Json.null)]
  | some v => [(key, v)]

/-- Serializer for `JsonRpcRequest` (the `params` field is skipped when
`None`). -/
def JsonRpcRequest.toJson (r : JsonRpcRequest) : Json :=
  Json.object ([("jsonrpc", Json.string r.jsonrpc), ("id", r.id),
    ("method", Json.string r.method)] ++ Json.skipNoneField "params" r.params)

/-- Serializer for `ToolsServerCapability`. -/
def ToolsServerCapability.toJson (c : ToolsServerCapability) : Json :=
  Json.object (Json.skipNoneField "list_changed" (c.list_changed.map Json.boolean))

/-- Serializer for `ResourcesServerCapability`. -/
def ResourcesServerCapability.toJson (c : ResourcesServerCapability) : Json :=
  Json.object (Json.skipNoneField "subscribe" (c.subscribe.map Json.boolean) ++
    Json.skipNoneField "list_changed" (c.list_changed.map Json.boolean))

/-- Serializer for `ServerCapabilities`. -/
def ServerCapabilities.toJson (c : ServerCapabilities) : Json :=
  Json.object (Json.skipNoneField "tools" (c.tools.map ToolsServerCapability.toJson) ++
    Json.skipNoneField "resources" (c.resources.map ResourcesServerCapability.toJson))

/-- Serializer for `ServerInfo`. -/
def ServerInfo.toJson (i : ServerInfo) : Json :=
  Json.object [("name", Json.string i.name), ("version", Json.string i.version)]

/-- Serializer for `InitializeResult`. -/
def InitializeResult.toJson (r : InitializeResult) : Json :=
  Json.object [("protocol_version", Json.string r.protocol_version),
    ("capabilities", r.capabilities.toJson),
    ("server_info", r.server_info.toJson)]

/-- Serializer for `ToolDefinition`. -/
def ToolDefinition.toJson (t : ToolDefinition) : Json :=
  Json.object [("name", Json.string t.name), ("description", Json.string t.description),
    ("input_schema", t.input_schema)]

/-- Serializer for `ToolsListResult` (`next_cursor` skipped when `None`). -/
def ToolsListResult.toJson (r : ToolsListResult) : Json :=
  Json.object ([("tools", Json.array (r.tools.map ToolDefinition.toJson))] ++
    Json.skipNoneField "next_cursor" (r.next_cursor.map Json.string))

/-- Serializer for `ResourceContent` (no skip attributes: `none` fields
serialize as `null`). -/
def ResourceContent.toJson (c : ResourceContent) : Json :=
  Json.object ([("uri", Json.string c.uri)] ++
    Json.nullableField "mime_type" (c.mime_type.map Json.string) ++
    Json.nullableField "text" (c.text.map Json.string) ++
    Json.nullableField "blob" (c.blob.map Json.string))

/-- Serializer for `ContentBlock` — internally tagged with `"type"`. -/
def ContentBlock.toJson : ContentBlock → Json
  | .Text text => Json.object [("type", Json.string "Text"), ("text", Json.string text)]
  | .Image data mime_type => Json.object [("type", Json.string "Image"),
      ("data", Json.string data), ("mime_type", Json.string mime_type)]
  | .Resource resource => Json.object [("type", Json.string "Resource"),
      ("resource", resource.toJson)]

/-- Serializer for `ToolsCallResult` (`is_error` skipped when `None`). -/
def ToolsCallResult.toJson (r : ToolsCallResult) : Json :=
  Json.object ([("content", Json.array (r.content.map ContentBlock.toJson))] ++
    Json.skipNoneField "is_error" (r.is_error.map Json.boolean))

/-- Serializer for `ResourceDefinition` (optional fields skipped when
`None`). -/
def ResourceDefinition.toJson (r : ResourceDefinition) : Json :=
  Json.object ([("uri", Json.string r.uri), ("name", Json.string r.name)] ++
    Json.skipNoneField "description" (r.description.map Json.string) ++
    Json.skipNoneField "mime_type" (r.mime_type.map Json.string) ++
    Json.skipNoneField "size" (r.size.map Json.number))

/-- Serializer for `ResourcesListResult` (`next_cursor` skipped when
`None`). -/
def ResourcesListResult.toJson (r : ResourcesListResult) : Json :=
  Json.object ([("resources", Json.array (r.resources.map ResourceDefinition.toJson))] ++
    Json.skipNoneField "next_cursor" (r.next_cursor.map Json.string))

/-- Serializer for `ResourcesReadResult`. -/
def ResourcesReadResult.toJson (r : ResourcesReadResult) : Json :=
  Json.object [("contents", Json.array (r.contents.map ResourceContent.toJson))]

/-- Serializer for `ToolsCallRequestParams` (`_meta` skipped when `None`). -/
def ToolsCallRequestParams.toJson (p : ToolsCallRequestParams) : Json :=
  Json.object ([("name", Json.string p.name), ("arguments", p.arguments)] ++
    Json.skipNoneField "_meta" p.meta)

/-- Serializer for `ResourcesReadRequestParams` (`_meta` skipped when
`None`). -/
def ResourcesReadRequestParams.toJson (p : ResourcesReadRequestParams) : Json :=
  Json.object ([("uri", Json.string p.uri)] ++ Json.skipNoneField "_meta" p.meta)

/-! ## Deserialization (`serde::Deserialize` derives)

Each `fromJson` mirrors the serde-derived deserializer: the input must be
an object; required fields must be present with a value of the right
shape; `Option` fields treat a missing key or an explicit `null` as
`none` and fail on a value of the wrong shape; unknown keys are
ignored. -/

/-- Decode a required field with the given value decoder. -/
def Json.requiredField (fields : List (String × Json)) (key : String)
    (dec : Json → Option α) : Option α :=
  match fields.lookup key with
  | none => none
  | some v => dec v

/-- Decode an `Option` field: missing or `null` is `none`; anything else
must decode. -/
def Json.optionField (fields : List (String × Json)) (key : String)
    (dec : Json → Option α) : Option (Option α) :=
  match fields.lookup key with
  | none => some none
  | some .null => some none
  | some v => (dec v).map some

/-- Decode a JSON string. -/
def Json.decStr : Json → Option String
  | .string s => some s
  | _ => none

/-- Decode a JSON boolean. -/
def Json.decBool : Json → Option Bool
  | .boolean b => some b
  | _ => none

/-- Decode a JSON integer. -/
def Json.decInt : Json → Option Int
  | .number n => some n
  | _ => none

/-- Deserializer for `JsonRpcRequest`: `jsonrpc`, `id` and `method` are
mandatory (`id` admits any JSON value, including `null`); `params` is
optional. A message with no `id` key therefore fails to deserialize. -/
def JsonRpcRequest.fromJson : Json → Option JsonRpcRequest
  | .object fields => do
      let jsonrpc ← Json.requiredField fields "jsonrpc" Json.decStr
      let id ← Json.requiredField fields "id" some
      let method ← Json.requiredField fields "method" Json.decStr
      let params ← Json.optionField fields "params" some
      pure { jsonrpc := jsonrpc, id := id, method := method, params := params }
  | _ => none

/-- Deserializer for `McpError`. -/
def McpError.fromJson : Json → Option McpError
  | .object fields => do
      let code ← Json.requiredField fields "code" Json.decInt
      let message ← Json.requiredField fields "message" Json.decStr
      let data ← Json.optionField fields "data" some
      pure { code := code, message := message, data := data }
  | _ => none

/-- Deserializer for `JsonRpcResponse`. -/
def JsonRpcResponse.fromJson : Json → Option JsonRpcResponse
  | .object fields => do
      let jsonrpc ← Json.requiredField fields "jsonrpc" Json.decStr
      let id ← Json.requiredField fields "id" some
      let result ← Json.optionField fields "result" some
      let error ← Json.optionField fields "error" McpError.fromJson
      pure { jsonrpc := jsonrpc, id := id, result := result, error := error }
  | _ => none

/-- Deserializer for `ToolsServerCapability`. -/
def ToolsServerCapability.fromJson : Json → Option ToolsServerCapability
  | .object fields => do
      let lc ← Json.optionField fields "list_changed" Json.decBool
      pure { list_changed := lc }
  | _ => none

/-- Deserializer for `ResourcesServerCapability`. -/
def ResourcesServerCapability.fromJson : Json → Option ResourcesServerCapability
  | .object fields => do
      let s ← Json.optionField fields "subscribe" Json.decBool
      let lc ← Json.optionField fields "list_changed" Json.decBool
      pure { subscribe := s, list_changed := lc }
  | _ => none

/-- Deserializer for `ServerCapabilities`. -/
def ServerCapabilities.fromJson : Json → Option ServerCapabilities
  | .object fields => do
      let t ← Json.optionField fields "tools" ToolsServerCapability.fromJson
      let r ← Json.optionField fields "resources" ResourcesServerCapability.fromJson
      pure { tools := t, resources := r }
  | _ => none

/-- Deserializer for `ServerInfo`. -/
def ServerInfo.fromJson : Json → Option ServerInfo
  | .object fields => do
      let name ← Json.requiredField fields "name" Json.decStr
      let version ← Json.requiredField fields "version" Json.decStr
      pure { name := name, version := version }
  | _ => none

/-- Deserializer for `InitializeResult`. -/
def InitializeResult.fromJson : Json → Option InitializeResult
  | .object fields => do
      let pv ← Json.requiredField fields "protocol_version" Json.decStr
      let caps ← Json.requiredField fields "capabilities" ServerCapabilities.fromJson
      let info ← Json.requiredField fields "server_info" ServerInfo.fromJson
      pure { protocol_version := pv, capabilities := caps, server_info := info }
  | _ => none

/-- Deserializer for `ToolsCallRequestParams`: `name` and `arguments` are
mandatory (`arguments` admits any JSON value). -/
def ToolsCallRequestParams.fromJson : Json → Option ToolsCallRequestParams
  | .object fields => do
      let name ← Json.requiredField fields "name" Json.decStr
      let args ← Json.requiredField fields "arguments" some
      let meta ← Json.optionField fields "_meta" some
      pure { name := name, arguments := args, meta := meta }
  | _ => none

/-- Deserializer for `ResourcesReadRequestParams`: `uri` is mandatory. -/
def ResourcesReadRequestParams.fromJson : Json → Option ResourcesReadRequestParams
  | .object fields => do
      let uri ← Json.requiredField fields "uri" Json.decStr
      let meta ← Json.optionField fields "_meta" some
      pure { uri := uri, meta := meta }
  | _ => none

/-- Deserializer for `ToolDefinition`. -/
def ToolDefinition.fromJson : Json → Option ToolDefinition
  | .object fields => do
      let name ← Json.requiredField fields "name" Json.decStr
      let description ← Json.requiredField fields "description" Json.decStr
      let schema ← Json.requiredField fields "input_schema" some
      pure { name := name, description := description, input_schema := schema }
  | _ => none

/-- Deserializer for `ToolsListResult`. -/
def ToolsListResult.fromJson : Json → Option ToolsListResult
  | .object fields => do
      let toolsJson ← Json.requiredField fields "tools" some
      let tools ← match toolsJson with
        | .array xs => xs.mapM ToolDefinition.fromJson
        | _ => none
      let cursor ← Json.optionField fields "next_cursor" Json.decStr
      pure { tools := tools, next_cursor := cursor }
  | _ => none

/-- Deserializer for `ResourceContent`. -/
def ResourceContent.fromJson : Json → Option ResourceContent
  | .object fields => do
      let uri ← Json.requiredField fields "uri" Json.decStr
      let mt ← Json.optionField fields "mime_type" Json.decStr
      let text ← Json.optionField fields "text" Json.decStr
      let blob ← Json.optionField fields "blob" Json.decStr
      pure { uri := uri, mime_type := mt, text := text, blob := blob }
  | _ => none

/-- Deserializer for `ContentBlock` — dispatches on the `"type"` tag. -/
def ContentBlock.fromJson : Json → Option ContentBlock
  | .object fields => do
      let tag ← Json.requiredField fields "type" Json.decStr
      match tag with
      | "Text" => do
          let text ← Json.requiredField fields "text" Json.decStr
          pure (ContentBlock.Text text)
      | "Image" => do
          let data ← Json.requiredField fields "data" Json.decStr
          let mt ← Json.requiredField fields "mime_type" Json.decStr
          pure (ContentBlock.Image data mt)
      | "Resource" => do
          let rc ← Json.requiredField fields "resource" ResourceContent.fromJson
          pure (ContentBlock.Resource rc)
      | _ => none
  | _ => none

/-- Deserializer for `ToolsCallResult`. -/
def ToolsCallResult.fromJson : Json → Option ToolsCallResult
  | .object fields => do
      let contentJson ← Json.requiredField fields "content" some
      let content ← match contentJson with
        | .array xs => xs.mapM ContentBlock.fromJson
        | _ => none
      let isErr ← Json.optionField fields "is_error" Json.decBool
      pure { content := content, is_error := isErr }
  | _ => none

/-- Deserializer for `ResourceDefinition`. -/
def ResourceDefinition.fromJson : Json → Option ResourceDefinition
  | .object fields => do
      let uri ← Json.requiredField fields "uri" Json.decStr
      let name ← Json.requiredField fields "name" Json.decStr
      let description ← Json.optionField fields "description" Json.decStr
      let mt ← Json.optionField fields "mime_type" Json.decStr
      let size ← Json.optionField fields "size" Json.decInt
      pure { uri := uri, name := name, description := description,
             mime_type := mt, size := size }
  | _ => none

/-- Deserializer for `ResourcesListResult`. -/
def ResourcesListResult.fromJson : Json → Option ResourcesListResult
  | .object fields => do
      let resJson ← Json.requiredField fields "resources" some
      let resources ← match resJson with
        | .array xs => xs.mapM ResourceDefinition.fromJson
        | _ => none
      let cursor ← Json.optionField fields "next_cursor" Json.decStr
      pure { resources := resources, next_cursor := cursor }
  | _ => none

/-- Deserializer for `ResourcesReadResult`. -/
def ResourcesReadResult.fromJson : Json → Option ResourcesReadResult
  | .object fields => do
      let contentsJson ← Json.requiredField fields "contents" some
      let contents ← match contentsJson with
        | .array xs => xs.mapM ResourceContent.fromJson
        | _ => none
      pure { contents := contents }
  | _ => none

/-! ## Collaborator capabilities bound to the server -/

/-- Modelled from the spec: the result of `Tool::execute` in
`crate::tools::traits` (the module is not among the sources here). Spec
section 6 gives `execute(arguments: JSON) -> {success: bool, output:
string, error: optional string}`; the field names also appear at the call
site in `server.rs` (`result.success`, `result.output`, `result.error`). -/
structure ToolResult where
  success : Bool
  output : String
  error : Option String

/-- Modelled from the spec: the `Tool` capability trait of
`crate::tools::traits` (not among the sources here). Spec section 6:
`name() -> string`, `description() -> string`, `parameters_schema() ->
JSON schema`, and a fallible `execute` (the call site in `server.rs`
matches on `Ok`/`Err` of `tool.execute(...)`). -/
structure Tool where
  name : String
  description : String
  parameters_schema : Json
  execute : Json → Except String ToolResult

/-- Modelled from the spec: an entry of the resource/memory store
(`crate::memory`, not among the sources here). Spec section 6 requires an
identifier, a category and textual content; `server.rs` additionally
reads `entry.key`. -/
structure MemoryEntry where
  id : String
  key : String
  category : String
  content : String
deriving Repr, DecidableEq

/-- Modelled from the spec: the `Memory` resource-store capability
(`crate::memory`, not among the sources here). Spec section 6:
`list(filter) -> [entries]` and `get(key) -> optional entry`; both are
fallible at the call sites in `server.rs` (`memory.list(None, None)` and
`memory.get(key)` are matched on `Ok`/`Err`). The store is read-only to
the protocol engine: no mutating operation exists on this interface. -/
structure Memory where
  list : Except String (List MemoryEntry)
  get : String → Except String (Option MemoryEntry)

/-! ## Server dispatch engine (`src/mcp/server.rs`) -/

namespace McpServer

/-- The crate version baked into the binary via `CARGO_PKG_VERSION`. The
manifest is not among the sources; no claim depends on this value. -/
def cargoPkgVersion : String := "0.1.0"

/-- The fixed payload built by `handle_initialize` (server.rs 156-171):
protocol version `2024-11-05`, tools capability with
`list_changed: Some(true)`, resources capability with
`subscribe: Some(false)` and `list_changed: Some(false)`, and the static
server identity `zeroclaw`. -/
def serverInitializeResult : InitializeResult :=
  { protocol_version := "2024-11-05",
    capabilities :=
      { tools := some { list_changed := some true },
        resources := some { subscribe := some false,
                            list_changed := some false } },
    server_info := { name := "zeroclaw", version := cargoPkgVersion } }

/-- `McpServer::handle_initialize` (server.rs 155-173). The request's
`params` are never passed in, let alone inspected. -/
def handle_initialize (id : Json) : JsonRpcResponse :=
  JsonRpcResponse.success id serverInitializeResult.toJson

/-- `McpServer::handle_tools_list` (server.rs 175-187). -/
def handle_tools_list (tools : List Tool) (id : Json) : JsonRpcResponse :=
  let tool_definitions := tools.map (fun t =>
    ToolDefinition.new t.name t.description t.parameters_schema)
  let result : ToolsListResult :=
    { tools := tool_definitions, next_cursor := none }
  JsonRpcResponse.success id result.toJson

/-- `McpServer::handle_tools_call` (server.rs 189-237). -/
def handle_tools_call (tools : List Tool) (params : Option Json)
    (id : Json) : JsonRpcResponse :=
  match params with
  | none => JsonRpcResponse.mkError id
      (McpError.new error_codes.INVALID_PARAMS "Missing params")
  | some p =>
    match ToolsCallRequestParams.fromJson p with
    | none => JsonRpcResponse.mkError id
        (McpError.new error_codes.INVALID_PARAMS "Invalid params")
    | some call_params =>
      let tool_name := call_params.name
      match tools.find? (fun t => t.name == tool_name) with
      | some tool =>
        match tool.execute call_params.arguments with
        | .ok result =>
          let tool_result :=
            if result.success then ToolsCallResult.text result.output
            else ToolsCallResult.error (result.error.getD "Unknown error")
          JsonRpcResponse.success id tool_result.toJson
        | .error e => JsonRpcResponse.mkError id
            (McpError.new error_codes.INTERNAL_ERROR e)
      | none => JsonRpcResponse.mkError id
          (McpError.new error_codes.TOOL_NOT_FOUND
            ("Tool not found: " ++ tool_name))

/-- `McpServer::handle_resources_list` (server.rs 239-268). -/
def handle_resources_list (memory : Memory) (id : Json) : JsonRpcResponse :=
  match memory.list with
  | .ok entries =>
    let resources := entries.map (fun entry =>
      (ResourceDefinition.new ("memory://" ++ entry.key) entry.key
        ).with_description (entry.category ++ " - " ++ entry.id))
    let result : ResourcesListResult :=
      { resources := resources, next_cursor := none }
    JsonRpcResponse.success id result.toJson
  | .error e => JsonRpcResponse.mkError id
      (McpError.new error_codes.INTERNAL_ERROR e)

/-- `uri.strip_prefix("memory://")` (server.rs 291): `some key` when the
URI starts with the nine-character scheme, where `key` is the remainder;
`none` otherwise. -/
def stripMemoryScheme (uri : String) : Option String :=
  if "memory://".data.isPrefixOf uri.data then some (uri.drop 9) else none

/-- `McpServer::handle_resources_read` (server.rs 270-323). The only
recognized addressing scheme is the `memory://` prefix; the key is the
remainder of the URI after those nine characters
(`uri.strip_prefix("memory://")`). The store is only ever read
(`memory.get`); no store operation other than the lookup occurs. -/
def handle_resources_read (memory : Memory) (params : Option Json)
    (id : Json) : JsonRpcResponse :=
  match params with
  | none => JsonRpcResponse.mkError id
      (McpError.new error_codes.INVALID_PARAMS "Missing params")
  | some p =>
    match ResourcesReadRequestParams.fromJson p with
    | none => JsonRpcResponse.mkError id
        (McpError.new error_codes.INVALID_PARAMS "Invalid params")
    | some read_params =>
      let uri := read_params.uri
      match stripMemoryScheme uri with
      | some key =>
        match memory.get key with
        | .ok (some entry) =>
          let content : ResourceContent :=
            { uri := uri, mime_type := some "text/plain",
              text := some entry.content, blob := none }
          JsonRpcResponse.success id
            (ResourcesReadResult.toJson { contents := [content] })
        | .ok none => JsonRpcResponse.mkError id
            (McpError.new error_codes.RESOURCE_NOT_FOUND
              "Memory entry not found")
        | .error e => JsonRpcResponse.mkError id
            (McpError.new error_codes.INTERNAL_ERROR e)
      | none =>
        JsonRpcResponse.mkError id
          (McpError.new error_codes.RESOURCE_NOT_FOUND
            "Unknown resource URI scheme")

/-- The `Ok(req)` branch of `handle_message_static` (server.rs 128-143):
route by method name. -/
def handleRequest (tools : List Tool) (memory : Memory)
    (req : JsonRpcRequest) : JsonRpcResponse :=
  let id := req.id
  match req.method with
  | "initialize" => handle_initialize id
  | "tools/list" => handle_tools_list tools id
  | "tools/call" => handle_tools_call tools req.params id
  | "resources/list" => handle_resources_list memory id
  | "resources/read" => handle_resources_read memory req.params id
  | _ => JsonRpcResponse.mkError id
      (McpError.new error_codes.METHOD_NOT_FOUND "Method not found")

/-- `McpServer::handle_message_static` (server.rs 121-149): deserialize
one inbound message as a `JsonRpcRequest` and dispatch; on deserialization
failure reply with a `ParseError` response carrying a `null` id. The
function is total: it produces a response envelope for every input.
(Byte-level framing is outside this model: the input is the decoded JSON
document of one line; a line that is not JSON at all takes the same
`ParseError` branch.) -/
def handle_message_static (tools : List Tool) (memory : Memory)
    (message : Json) : JsonRpcResponse :=
  match JsonRpcRequest.fromJson message with
  | some req => handleRequest tools memory req
  | none => JsonRpcResponse.mkError Json.null
      (McpError.new error_codes.PARSE_ERROR "Invalid JSON")

end McpServer

/-! ## Client (`src/mcp/client.rs`) -/

/-- `client.rs::ConnectionState`. -/
inductive ConnectionState where
  | Disconnected
  | Connecting
  | Connected
  | Reconnecting
deriving Repr, DecidableEq

namespace McpClient

/-- `McpClient::new` sets `max_retries: 5` (client.rs 84). -/
def defaultMaxRetries : Nat := 5

/-- `McpClient::new` sets `base_delay_ms: 1000` (client.rs 85). -/
def defaultBaseDelayMs : Nat := 1000

/-- The locally fabricated payload `json!({"status": "sent"})` built by
the stdio arm of `send_request` (client.rs 269-272). -/
def statusSentJson : Json := Json.object [("status", Json.string "sent")]

/-- The `TransportMode::Stdio` arm of `McpClient::send_request`
(client.rs 263-273): if a request sender is installed, the serialized
request is queued to the writer task and a locally fabricated success
response carrying `{"status": "sent"}` is returned at once — the method
does not wait for, or correlate by id, any response from the child
process (there is no pending-request table in the client). The returned
pair is the response handed to the caller together with the list of
documents queued for writing. -/
def sendRequestStdio (senderPresent : Bool) (request : JsonRpcRequest) :
    Except String (JsonRpcResponse × List Json) :=
  if senderPresent then
    .ok (JsonRpcResponse.success request.id statusSentJson,
      [request.toJson])
  else
    .error "Not connected"

/-- The shared state visible to the background reader task spawned by
`connect_stdio` (client.rs 143-153): the connection state and the
negotiated server capabilities and info. -/
structure ReaderShared where
  state : ConnectionState
  server_capabilities : Option ServerCapabilities
  server_info : Option ServerInfo
deriving Repr, DecidableEq

/-- `McpClient::handle_response` (client.rs 194-210) as a transformer of
the reader-visible state: deserialize the line as a `JsonRpcResponse`;
if it carries a `result` that parses as an `InitializeResult`, store the
capabilities and server info. The `_state` parameter of the source is
never read or written, and a deserialization failure is only logged by
the reader loop, so both leave the state untouched. -/
def handle_response (sh : ReaderShared) (line : Json) : ReaderShared :=
  match JsonRpcResponse.fromJson line with
  | none => sh
  | some response =>
    match response.result with
    | some result =>
      match InitializeResult.fromJson result with
      | some init_result =>
        { sh with server_capabilities := some init_result.capabilities,
                  server_info := some init_result.server_info }
      | none => sh
    | none => sh

/-- The background reader task spawned by `connect_stdio` (client.rs
147-153): handle each stdout line in order; when the child's stdout
reaches end of input — the child process exited or the pipe broke — the
`while let` loop simply ends. The argument list is the complete sequence
of lines the child emitted before exiting. -/
def readerTask (sh : ReaderShared) : List Json → ReaderShared
  | [] => sh
  | line :: rest => readerTask (handle_response sh line) rest

/-- Actions a client method performs against the transport, in order. -/
inductive ClientAction where
  | transportConnect
  | reconnectCall
  | send (request : JsonRpcRequest)
deriving Repr, DecidableEq

/-- The `McpClient` fields whose values `connect` can read or write. -/
structure ClientSnapshot where
  state : ConnectionState
  server_capabilities : Option ServerCapabilities
  server_info : Option ServerInfo
  senderPresent : Bool
deriving Repr, DecidableEq

/-- `McpClient::connect` (client.rs 89-115), parameterized by the outcome
of the transport connect (`connect_stdio`/`connect_http`, which spawn the
child and run the initialize handshake; on success it yields the snapshot
those side effects install). If the state is already `Connected` the
method returns `Ok` at once, performing nothing. Otherwise the state
passes transiently through `Connecting` and the final state is
`Connected` on success and `Disconnected` on failure. Returns the call
result, the snapshot after the call, and the actions performed. -/
def connect (c : ClientSnapshot)
    (transportOutcome : Except String ClientSnapshot) :
    Except String Unit × ClientSnapshot × List ClientAction :=
  if c.state = ConnectionState.Connected then
    (.ok (), c, [])
  else
    match transportOutcome with
    | .ok c2 =>
        (.ok (), { c2 with state := ConnectionState.Connected },
          [.transportConnect])
    | .error e =>
        (.error e, { c with state := ConnectionState.Disconnected },
          [.transportConnect])

/-- The observable outcome of one `McpClient::reconnect` call: the
result, the number of `connect` attempts issued, and the backoff delays
slept between and after failed attempts (milliseconds, in order; the
source also sleeps once after the final failed attempt). -/
structure ReconnectTrace where
  result : Except String Unit
  attempts : Nat
  sleeps : List Nat
deriving Repr

/-- The terminal error message of `reconnect` (client.rs 359-362). -/
def reconnectFailMsg (max_retries : Nat) : String :=
  "Failed to reconnect to MCP server after " ++ toString max_retries ++
    " attempts"

/-- The retry loop of `McpClient::reconnect` (client.rs 330-357). `ok k`
abstracts whether the `self.connect()` call of attempt `k` (0-indexed)
succeeds; `retries` and `delay` are the loop variables, and
`remaining = max_retries - retries` values the loop guard
`retries < max_retries`. On a failed attempt the loop sleeps `delay`,
doubles it and increments `retries`. -/
def reconnectGo (ok : Nat → Bool) (max_retries : Nat) (retries delay : Nat) :
    Nat → ReconnectTrace
  | 0 => { result := .error (reconnectFailMsg max_retries), attempts := 0,
           sleeps := [] }
  | remaining + 1 =>
    if ok retries then
      { result := .ok (), attempts := 1, sleeps := [] }
    else
      let rest := reconnectGo ok max_retries (retries + 1) (delay * 2)
        remaining
      { result := rest.result, attempts := rest.attempts + 1,
        sleeps := delay :: rest.sleeps }

/-- `McpClient::reconnect` (client.rs 329-363): the loop starts with
`retries = 0` and `delay = base_delay_ms`. -/
def reconnect (ok : Nat → Bool) (max_retries base_delay_ms : Nat) :
    ReconnectTrace :=
  reconnectGo ok max_retries 0 base_delay_ms max_retries

/-- The response mapping of `list_tools` (client.rs 383-392): a
server-side error becomes a typed failure; a present `result` is decoded
(the decode-failure message stands in for the serde error text); an
absent `result` yields the empty list. -/
def listToolsHandle (response : JsonRpcResponse) :
    Except String (List ToolDefinition) :=
  match response.error with
  | some error => .error ("Failed to list tools: " ++ error.message)
  | none =>
    match response.result with
    | some result =>
      match ToolsListResult.fromJson result with
      | some list_result => .ok list_result.tools
      | none => .error "serde: invalid ToolsListResult"
    | none => .ok []

/-- The response mapping of `call_tool` (client.rs 414-423): an absent
`result` is a failure, unlike `list_tools`. -/
def callToolHandle (response : JsonRpcResponse) :
    Except String ToolsCallResult :=
  match response.error with
  | some error => .error ("Tool call failed: " ++ error.message)
  | none =>
    match response.result with
    | some result =>
      match ToolsCallResult.fromJson result with
      | some call_result => .ok call_result
      | none => .error "serde: invalid ToolsCallResult"
    | none => .error "No result from tool call"

/-- The response mapping of `list_resources` (client.rs 432-444): an
absent `result` yields the empty list. -/
def listResourcesHandle (response : JsonRpcResponse) :
    Except String (List ResourceDefinition) :=
  match response.error with
  | some error => .error ("Failed to list resources: " ++ error.message)
  | none =>
    match response.result with
    | some result =>
      match ResourcesListResult.fromJson result with
      | some list_result => .ok list_result.resources
      | none => .error "serde: invalid ResourcesListResult"
    | none => .ok []

/-- The response mapping of `read_resource` (client.rs 462-474): an
absent `result` is a failure, unlike `list_resources`. -/
def readResourceHandle (response : JsonRpcResponse) :
    Except String (List ResourceContent) :=
  match response.error with
  | some error => .error ("Failed to read resource: " ++ error.message)
  | none =>
    match response.result with
    | some result =>
      match ResourcesReadResult.fromJson result with
      | some read_result => .ok read_result.contents
      | none => .error "serde: invalid ResourcesReadResult"
    | none => .error "No result from resource read"

/-- `McpClient::list_tools` (client.rs 377-393): build the request and
send it at once. The connection state is available to the method but
never consulted, and `self.reconnect()` is never called — hence the
unused `state` and `reconnectOutcome` parameters. `send` abstracts
`send_request`; `id` is the fresh correlation id from `next_id()`. -/
def list_tools (state : ConnectionState)
    (reconnectOutcome : Except String Unit)
    (send : JsonRpcRequest → Except String JsonRpcResponse) (id : Json) :
    Except String (List ToolDefinition) × List ClientAction :=
  let request := JsonRpcRequest.new id "tools/list" none
  match send request with
  | .error e => (.error e, [.send request])
  | .ok response => (listToolsHandle response, [.send request])

/-- `McpClient::list_resources` (client.rs 426-445): like `list_tools`,
no connectivity check before sending. -/
def list_resources (state : ConnectionState)
    (reconnectOutcome : Except String Unit)
    (send : JsonRpcRequest → Except String JsonRpcResponse) (id : Json) :
    Except String (List ResourceDefinition) × List ClientAction :=
  let request := JsonRpcRequest.new id "resources/list" none
  match send request with
  | .error e => (.error e, [.send request])
  | .ok response => (listResourcesHandle response, [.send request])

/-- The request-building and sending part of `call_tool` (client.rs
404-423), run after the connectivity check. -/
def callToolSend (send : JsonRpcRequest → Except String JsonRpcResponse)
    (id : Json) (name : String) (arguments : Json) :
    Except String ToolsCallResult × List ClientAction :=
  let params : ToolsCallRequestParams :=
    { name := name, arguments := arguments, meta := none }
  let request := JsonRpcRequest.new id "tools/call" (some params.toJson)
  match send request with
  | .error e => (.error e, [.send request])
  | .ok response => (callToolHandle response, [.send request])

/-- `McpClient::call_tool` (client.rs 395-424): if the state is not
`Connected` (`!self.is_connected()`), call `self.reconnect()` first and
propagate its failure (`?`) without sending; then build and send the
request. `reconnectOutcome` abstracts the outcome of that `reconnect`
call. -/
def call_tool (state : ConnectionState)
    (reconnectOutcome : Except String Unit)
    (send : JsonRpcRequest → Except String JsonRpcResponse) (id : Json)
    (name : String) (arguments : Json) :
    Except String ToolsCallResult × List ClientAction :=
  if state ≠ ConnectionState.Connected then
    match reconnectOutcome with
    | .error e => (.error e, [.reconnectCall])
    | .ok _ =>
      let r := callToolSend send id name arguments
      (r.1, .reconnectCall :: r.2)
  else
    callToolSend send id name arguments

/-- The request-building and sending part of `read_resource` (client.rs
452-474), run after the connectivity check. -/
def readResourceSend (send : JsonRpcRequest → Except String JsonRpcResponse)
    (id : Json) (uri : String) :
    Except String (List ResourceContent) × List ClientAction :=
  let params : ResourcesReadRequestParams := { uri := uri, meta := none }
  let request := JsonRpcRequest.new id "resources/read" (some params.toJson)
  match send request with
  | .error e => (.error e, [.send request])
  | .ok response => (readResourceHandle response, [.send request])

/-- `McpClient::read_resource` (client.rs 447-475): same connectivity
check and single reconnect as `call_tool`. -/
def read_resource (state : ConnectionState)
    (reconnectOutcome : Except String Unit)
    (send : JsonRpcRequest → Except String JsonRpcResponse) (id : Json)
    (uri : String) :
    Except String (List ResourceContent) × List ClientAction :=
  if state ≠ ConnectionState.Connected then
    match reconnectOutcome with
    | .error e => (.error e, [.reconnectCall])
    | .ok _ =>
      let r := readResourceSend send id uri
      (r.1, .reconnectCall :: r.2)
  else
    readResourceSend send id uri

end McpClient

/-! ## Concrete fixtures used by witnesses and counterexamples -/

/-- A bound store with no entries: every lookup misses. -/
def mem0 : Memory := { list := .ok [], get := fun _ => .ok none }

/-- A one-tool registry entry: the `echo` tool. -/
def echoTool : Tool :=
  { name := "echo", description := "echoes its text argument",
    parameters_schema := Json.object [],
    execute := fun args => .ok
      { success := true,
        output := (match args.getField "text" with
                   | some (Json.string s) => s
                   | _ => ""),
        error := none } }

/-- The response-returning view of `send_request` on the stdio transport
with a sender installed: what a client operation receives back from
`send_request`. -/
def McpClient.stdioSend (request : JsonRpcRequest) :
    Except String JsonRpcResponse :=
  (McpClient.sendRequestStdio true request).map Prod.fst

/-! ## Theorems -/

/-- C6: a `tools/call` request whose well-formed params name no tool in
the registry is answered with the `ToolNotFound` error (code -32001).
The response equals this fixed error for an arbitrary registry with
non-matching names, whatever the registered tools' `execute` functions
are — so no registered tool is invoked. -/
theorem toolsCall_unknown_tool (tools : List Tool) (id pj : Json)
    (cp : ToolsCallRequestParams)
    (hdec : ToolsCallRequestParams.fromJson pj = some cp)
    (hname : cp.name ∉ tools.map Tool.name) :
    McpServer.handle_tools_call tools (some pj) id
      = JsonRpcResponse.mkError id
          (McpError.new error_codes.TOOL_NOT_FOUND
            ("Tool not found: " ++ cp.name)) := by
  have hfind : tools.find? (fun t => t.name == cp.name) = none := by
    rw [List.find?_eq_none]
    intro t ht hbeq
    have hEq : t.name = cp.name := by simpa using hbeq
    exact hname (hEq ▸ List.mem_map_of_mem Tool.name ht)
  simp [McpServer.handle_tools_call, hdec, hfind]

/-- C6 witness: calling the unregistered name `missing` against the
one-tool `echo` registry. -/
theorem toolsCall_unknown_tool_witness :
    McpServer.handle_tools_call [echoTool]
        (some (Json.object [("name", Json.string "missing"),
          ("arguments", Json.null)])) (Json.number 3)
      = JsonRpcResponse.mkError (Json.number 3)
          (McpError.new error_codes.TOOL_NOT_FOUND
            "Tool not found: missing") :=
  toolsCall_unknown_tool [echoTool] (Json.number 3) _
    { name := "missing", arguments := Json.null, meta := none }
    (by decide)
    (by
      intro h
      simp [echoTool] at h)

/-- C7: `resources/read` with well-formed params and a URI that does not
carry the recognized `memory://` scheme is answered with the
`ResourceNotFound` error (code -32002), and the store is not consulted
at all (the response is identical for every bound store; the `Memory`
interface is in any case read-only, so no mutation can occur). A URI
with the recognized scheme whose key misses the store likewise yields
`ResourceNotFound`. -/
theorem resourcesRead_not_found (memory : Memory) (id pj : Json)
    (rp : ResourcesReadRequestParams)
    (hdec : ResourcesReadRequestParams.fromJson pj = some rp) :
    (McpServer.stripMemoryScheme rp.uri = none →
      McpServer.handle_resources_read memory (some pj) id
        = JsonRpcResponse.mkError id
            (McpError.new error_codes.RESOURCE_NOT_FOUND
              "Unknown resource URI scheme")
      ∧ ∀ memory2 : Memory,
          McpServer.handle_resources_read memory2 (some pj) id
            = McpServer.handle_resources_read memory (some pj) id)
    ∧ ∀ key, McpServer.stripMemoryScheme rp.uri = some key →
        memory.get key = .ok none →
        McpServer.handle_resources_read memory (some pj) id
          = JsonRpcResponse.mkError id
              (McpError.new error_codes.RESOURCE_NOT_FOUND
                "Memory entry not found") := by
  constructor
  · intro hscheme
    constructor
    · simp [McpServer.handle_resources_read, hdec, hscheme]
    · intro memory2
      simp [McpServer.handle_resources_read, hdec, hscheme]
  · intro key hscheme hget
    simp [McpServer.handle_resources_read, hdec, hscheme, hget]

/-- C7 witness: an unrecognized `file://` scheme and a recognized
`memory://` URI whose key misses the empty store. -/
theorem resourcesRead_not_found_witness :
    (McpServer.handle_resources_read mem0
        (some (Json.object [("uri", Json.string "file:///etc/hosts")]))
        (Json.number 4)
      = JsonRpcResponse.mkError (Json.number 4)
          (McpError.new error_codes.RESOURCE_NOT_FOUND
            "Unknown resource URI scheme"))
    ∧ (McpServer.handle_resources_read mem0
        (some (Json.object [("uri", Json.string "memory://missing")]))
        (Json.number 5)
      = JsonRpcResponse.mkError (Json.number 5)
          (McpError.new error_codes.RESOURCE_NOT_FOUND
            "Memory entry not found")) :=
  ⟨((resourcesRead_not_found mem0 (Json.number 4) _
      { uri := "file:///etc/hosts", meta := none } (by decide)).1
        (by decide)).1,
   (resourcesRead_not_found mem0 (Json.number 5) _
      { uri := "memory://missing", meta := none } (by decide)).2
        "missing" (by decide) rfl⟩

/-- C9: every decoded request with method `initialize` — whatever its
`params` field (absent or arbitrary JSON; the handler is never given
them) and whatever registry and store are bound — is answered with the
fixed success response echoing the request id: protocol version
`2024-11-05`, tools capability `list_changed = true`, resources
capability `subscribe = false` and `list_changed = false`, server name
`zeroclaw`. The error field of the response is `none`, so in particular
`InvalidParams` is never returned for this method. -/
theorem initialize_ignores_params (tools : List Tool) (memory : Memory)
    (jr : String) (id : Json) (params : Option Json) :
    McpServer.handleRequest tools memory
        { jsonrpc := jr, id := id, method := "initialize", params := params }
      = JsonRpcResponse.success id
          (InitializeResult.toJson McpServer.serverInitializeResult)
    ∧ McpServer.serverInitializeResult.protocol_version = "2024-11-05"
    ∧ McpServer.serverInitializeResult.capabilities.tools
        = some { list_changed := some true }
    ∧ McpServer.serverInitializeResult.capabilities.resources
        = some { subscribe := some false, list_changed := some false }
    ∧ McpServer.serverInitializeResult.server_info.name = "zeroclaw"
    ∧ (McpServer.handleRequest tools memory
        { jsonrpc := jr, id := id, method := "initialize",
          params := params }).error = none :=
  ⟨rfl, rfl, rfl, rfl, rfl, rfl⟩

/-- C4 counterexample: the claim says a Notification — a message with no
`id` field — gets no reply of any kind. In the code `handle_message_static`
is total and `run_stdio` writes every returned envelope, and an id-less
message fails request deserialization (the `id` field of `JsonRpcRequest`
is mandatory), so the server replies to the `initialized` notification
with a `ParseError` envelope carrying a null id. -/
theorem notification_gets_reply_counterexample :
    McpServer.handle_message_static [] mem0
        (Json.object [("jsonrpc", Json.string "2.0"),
          ("method", Json.string "initialized")])
      = JsonRpcResponse.mkError Json.null
          (McpError.new error_codes.PARSE_ERROR "Invalid JSON") := by
  decide

/-- C4 amended: a message with no `id` key fails to deserialize as a
request, and the server replies with a `ParseError` (-32700) response
whose id is null; notifications are not recognized as a distinct
no-reply case. -/
theorem idless_message_gets_parse_error_reply (tools : List Tool)
    (memory : Memory) (fields : List (String × Json))
    (hid : fields.lookup "id" = none) :
    McpServer.handle_message_static tools memory (Json.object fields)
      = JsonRpcResponse.mkError Json.null
          (McpError.new error_codes.PARSE_ERROR "Invalid JSON") := by
  have hdec : JsonRpcRequest.fromJson (Json.object fields) = none := by
    simp only [JsonRpcRequest.fromJson]
    cases h : Json.requiredField fields "jsonrpc" Json.decStr with
    | none => simp
    | some jr => simp [Json.requiredField, hid]
  simp [McpServer.handle_message_static, hdec]

/-- C4 amended witness: a `notifications/tools/list_changed` notification
(no `id` key) draws the `ParseError` reply. -/
theorem idless_message_gets_parse_error_reply_witness :
    McpServer.handle_message_static [echoTool] mem0
        (Json.object [("jsonrpc", Json.string "2.0"),
          ("method", Json.string "notifications/tools/list_changed")])
      = JsonRpcResponse.mkError Json.null
          (McpError.new error_codes.PARSE_ERROR "Invalid JSON") :=
  idless_message_gets_parse_error_reply [echoTool] mem0
    [("jsonrpc", Json.string "2.0"),
     ("method", Json.string "notifications/tools/list_changed")] (by decide)

/-- C1 (code defect): on the stdio transport `send_request` never
delivers a remote response. For every request it returns, at once, the
locally fabricated acknowledgement `{"status": "sent"}` built from the
request's own id, merely queueing the serialized request for the writer
task; there is no pending-request table in the client, so no correlated
remote response can ever reach the caller. Concretely, the fabricated
acknowledgement for request id 1 differs from the remote peer's
correlated `tools/list` response `{"tools": []}`. -/
theorem sendRequestStdio_fabricates_ack :
    (∀ request : JsonRpcRequest,
      McpClient.sendRequestStdio true request
        = .ok (JsonRpcResponse.success request.id McpClient.statusSentJson,
            [request.toJson]))
    ∧ JsonRpcResponse.success (Json.number 1) McpClient.statusSentJson
        ≠ JsonRpcResponse.success (Json.number 1)
            (Json.object [("tools", Json.array [])]) :=
  ⟨fun _ => rfl, by decide⟩

/-- C2 counterexample: `list_tools` invoked while the connection state is
`Disconnected` sends its request anyway — its action trace is exactly one
send and contains no reconnect — refuting that every operation triggers
reconnect before sending and never sends while not Connected. -/
theorem listTools_sends_while_disconnected :
    (McpClient.list_tools ConnectionState.Disconnected
        (.error "server unavailable") McpClient.stdioSend (Json.number 2)).2
      = [McpClient.ClientAction.send
          (JsonRpcRequest.new (Json.number 2) "tools/list" none)] := rfl

/-- C2 amended: only `call_tool` and `read_resource` check the connection
state. Invoked while not Connected they call `reconnect` before anything
else (the head of their action trace), and a failed reconnect fails the
operation with no send at all; `list_tools` and `list_resources` never
call reconnect and send their request unconditionally. -/
theorem connectivity_check_only_in_call_and_read
    (state : ConnectionState) (rc : Except String Unit)
    (send : JsonRpcRequest → Except String JsonRpcResponse)
    (id : Json) (name : String) (arguments : Json) (uri : String)
    (hstate : state ≠ ConnectionState.Connected) :
    ((McpClient.call_tool state rc send id name arguments).2.head?
        = some McpClient.ClientAction.reconnectCall)
    ∧ (∀ e, rc = .error e →
        McpClient.call_tool state rc send id name arguments
          = (.error e, [McpClient.ClientAction.reconnectCall]))
    ∧ ((McpClient.read_resource state rc send id uri).2.head?
        = some McpClient.ClientAction.reconnectCall)
    ∧ (∀ e, rc = .error e →
        McpClient.read_resource state rc send id uri
          = (.error e, [McpClient.ClientAction.reconnectCall]))
    ∧ McpClient.ClientAction.reconnectCall
        ∉ (McpClient.list_tools state rc send id).2
    ∧ McpClient.ClientAction.reconnectCall
        ∉ (McpClient.list_resources state rc send id).2 := by
  refine ⟨?_, ?_, ?_, ?_, ?_, ?_⟩
  · cases rc with
    | error e => simp [McpClient.call_tool, hstate]
    | ok u => simp [McpClient.call_tool, hstate]
  · intro e hrc
    subst hrc
    simp [McpClient.call_tool, hstate]
  · cases rc with
    | error e => simp [McpClient.read_resource, hstate]
    | ok u => simp [McpClient.read_resource, hstate]
  · intro e hrc
    subst hrc
    simp [McpClient.read_resource, hstate]
  · simp only [McpClient.list_tools]
    cases send (JsonRpcRequest.new id "tools/list" none) with
    | error e => simp
    | ok response => simp
  · simp only [McpClient.list_resources]
    cases send (JsonRpcRequest.new id "resources/list" none) with
    | error e => simp
    | ok response => simp

/-- C2 amended witness: at a Disconnected state with a failing reconnect,
`call_tool` fails with exactly one reconnect action and no send, while
`list_tools` performs no reconnect action. -/
theorem connectivity_check_witness :
    McpClient.call_tool ConnectionState.Disconnected (.error "down")
        McpClient.stdioSend (Json.number 8) "echo" Json.null
      = (.error "down", [McpClient.ClientAction.reconnectCall])
    ∧ McpClient.ClientAction.reconnectCall
        ∉ (McpClient.list_tools ConnectionState.Disconnected (.error "down")
            McpClient.stdioSend (Json.number 9)).2 :=
  ⟨(connectivity_check_only_in_call_and_read ConnectionState.Disconnected
      (.error "down") McpClient.stdioSend (Json.number 8) "echo" Json.null
      "memory://k" (by decide)).2.1 "down" rfl,
   (connectivity_check_only_in_call_and_read ConnectionState.Disconnected
      (.error "down") McpClient.stdioSend (Json.number 9) "echo" Json.null
      "memory://k" (by decide)).2.2.2.2.1⟩

/-- `handle_response` never changes the connection state: the `_state`
parameter of the source function is never read or written. -/
theorem handle_response_preserves_state (sh : McpClient.ReaderShared)
    (line : Json) :
    (McpClient.handle_response sh line).state = sh.state := by
  cases hr : JsonRpcResponse.fromJson line with
  | none => simp [McpClient.handle_response, hr]
  | some response =>
    cases hres : response.result with
    | none => simp [McpClient.handle_response, hr, hres]
    | some result =>
      cases hinit : InitializeResult.fromJson result with
      | none => simp [McpClient.handle_response, hr, hres, hinit]
      | some init_result =>
        simp [McpClient.handle_response, hr, hres, hinit]

/-- C3 (code defect): when the child's stdout ends — the child process
exited or the pipe broke — the background reader task simply finishes.
For every sequence of lines read before that point, the connection state
after the reader task equals the state before it: the client never
transitions to Disconnected, and since the client keeps no
pending-request table (`send_request` already answered every caller with
the fabricated acknowledgement) there is no in-flight request left to
fail with a transport-closed error. In particular a Connected client
whose child exits immediately stays Connected. -/
theorem readerTask_leaves_state_unchanged :
    (∀ (sh : McpClient.ReaderShared) (lines : List Json),
      (McpClient.readerTask sh lines).state = sh.state)
    ∧ (McpClient.readerTask
        { state := ConnectionState.Connected, server_capabilities := none,
          server_info := none } []).state = ConnectionState.Connected := by
  constructor
  · intro sh lines
    induction lines generalizing sh with
    | nil => rfl
    | cons line rest ih =>
      simp only [McpClient.readerTask]
      rw [ih (McpClient.handle_response sh line),
        handle_response_preserves_state]
  · rfl

/-- C8: `connect` on an already-Connected client is a no-op success: it
returns `Ok` without touching the transport (no handshake actions) and
leaves every client field unchanged, whatever a transport connect would
have done. -/
theorem connect_noop_when_connected (c : McpClient.ClientSnapshot)
    (transportOutcome : Except String McpClient.ClientSnapshot)
    (hc : c.state = ConnectionState.Connected) :
    McpClient.connect c transportOutcome = (.ok (), c, []) := by
  simp [McpClient.connect, hc]

/-- C8 witness: a Connected snapshot with a transport that would fail to
connect — `connect` still succeeds untouched. -/
theorem connect_noop_when_connected_witness :
    McpClient.connect
        { state := ConnectionState.Connected, server_capabilities := none,
          server_info := none, senderPresent := true }
        (.error "spawn failed")
      = (.ok (),
         { state := ConnectionState.Connected, server_capabilities := none,
           server_info := none, senderPresent := true }, []) :=
  connect_noop_when_connected _ _ rfl

/-- C10: on a response carrying neither `result` nor `error`, the four
operations' response mappings are asymmetric: `list_tools` and
`list_resources` succeed with the empty list while `call_tool` and
`read_resource` fail. -/
theorem empty_response_asymmetry (response : JsonRpcResponse)
    (hres : response.result = none) (herr : response.error = none) :
    McpClient.listToolsHandle response = .ok []
    ∧ McpClient.listResourcesHandle response = .ok []
    ∧ McpClient.callToolHandle response = .error "No result from tool call"
    ∧ McpClient.readResourceHandle response
        = .error "No result from resource read" := by
  refine ⟨?_, ?_, ?_, ?_⟩ <;>
    simp [McpClient.listToolsHandle, McpClient.listResourcesHandle,
      McpClient.callToolHandle, McpClient.readResourceHandle, hres, herr]

/-- C10 witness: the concrete result- and error-less response with id 7. -/
theorem empty_response_asymmetry_witness :
    McpClient.listToolsHandle
        { jsonrpc := "2.0", id := Json.number 7, result := none, error := none }
      = .ok []
    ∧ McpClient.listResourcesHandle
        { jsonrpc := "2.0", id := Json.number 7, result := none, error := none }
      = .ok []
    ∧ McpClient.callToolHandle
        { jsonrpc := "2.0", id := Json.number 7, result := none, error := none }
      = .error "No result from tool call"
    ∧ McpClient.readResourceHandle
        { jsonrpc := "2.0", id := Json.number 7, result := none, error := none }
      = .error "No result from resource read" :=
  empty_response_asymmetry
    { jsonrpc := "2.0", id := Json.number 7, result := none, error := none }
    rfl rfl

/-- Shape of one successful reconnect attempt: the loop returns at once
with one attempt and no sleep. -/
theorem reconnectGo_succ_pos (ok : Nat → Bool) (N r d rem : Nat)
    (hr : ok r = true) :
    McpClient.reconnectGo ok N r d (rem + 1)
      = { result := .ok (), attempts := 1, sleeps := [] } := by
  simp [McpClient.reconnectGo, hr]

/-- Shape of one failed reconnect attempt: sleep the current delay, then
continue with the doubled delay. -/
theorem reconnectGo_succ_neg (ok : Nat → Bool) (N r d rem : Nat)
    (hr : ok r = false) :
    McpClient.reconnectGo ok N r d (rem + 1)
      = { result := (McpClient.reconnectGo ok N (r + 1) (d * 2) rem).result,
          attempts :=
            (McpClient.reconnectGo ok N (r + 1) (d * 2) rem).attempts + 1,
          sleeps :=
            d :: (McpClient.reconnectGo ok N (r + 1) (d * 2) rem).sleeps } := by
  simp [McpClient.reconnectGo, hr]

/-- The reconnect loop issues at most `remaining` connect attempts. -/
theorem reconnectGo_attempts_le (ok : Nat → Bool) (N : Nat) :
    ∀ (rem r d : Nat), (McpClient.reconnectGo ok N r d rem).attempts ≤ rem := by
  intro rem
  induction rem with
  | zero => intro r d; simp [McpClient.reconnectGo]
  | succ rem ih =>
    intro r d
    cases hr : ok r with
    | true => simp [reconnectGo_succ_pos ok N r d rem hr]
    | false =>
      have := ih (r + 1) (d * 2)
      simp only [reconnectGo_succ_neg ok N r d rem hr]
      omega

/-- If the first successful attempt (relative to the loop position `r`)
is the `k`-th one, the loop succeeds with exactly `k + 1` attempts and
`k` sleeps. -/
theorem reconnectGo_success (ok : Nat → Bool) (N : Nat) :
    ∀ (k rem r d : Nat), k < rem → ok (r + k) = true →
      (∀ j, j < k → ok (r + j) = false) →
      (McpClient.reconnectGo ok N r d rem).result = .ok ()
      ∧ (McpClient.reconnectGo ok N r d rem).attempts = k + 1
      ∧ (McpClient.reconnectGo ok N r d rem).sleeps.length = k := by
  intro k
  induction k with
  | zero =>
    intro rem r d hlt hok _
    cases rem with
    | zero => omega
    | succ rem =>
      have hr : ok r = true := by simpa using hok
      simp [reconnectGo_succ_pos ok N r d rem hr]
  | succ k ih =>
    intro rem r d hlt hok hfail
    cases rem with
    | zero => omega
    | succ rem =>
      have hr : ok r = false := by simpa using hfail 0 (Nat.succ_pos k)
      have hrec := ih rem (r + 1) (d * 2) (by omega)
        (by rw [show r + 1 + k = r + (k + 1) by omega]; exact hok)
        (fun j hj => by
          rw [show r + 1 + j = r + (j + 1) by omega]
          exact hfail (j + 1) (by omega))
      simp [reconnectGo_succ_neg ok N r d rem hr, hrec.1, hrec.2.1,
        hrec.2.2]

/-- If every attempt fails, the loop makes exactly `remaining` attempts
and ends with the terminal error naming the configured maximum. -/
theorem reconnectGo_all_fail (ok : Nat → Bool) (N : Nat) :
    ∀ (rem r d : Nat), (∀ j, j < rem → ok (r + j) = false) →
      (McpClient.reconnectGo ok N r d rem).result
        = .error (McpClient.reconnectFailMsg N)
      ∧ (McpClient.reconnectGo ok N r d rem).attempts = rem
      ∧ (McpClient.reconnectGo ok N r d rem).sleeps.length = rem := by
  intro rem
  induction rem with
  | zero => intro r d _; simp [McpClient.reconnectGo]
  | succ rem ih =>
    intro r d hfail
    have hr : ok r = false := by simpa using hfail 0 (Nat.succ_pos rem)
    have hrec := ih (r + 1) (d * 2) (fun j hj => by
      rw [show r + 1 + j = r + (j + 1) by omega]
      exact hfail (j + 1) (by omega))
    simp [reconnectGo_succ_neg ok N r d rem hr, hrec.1, hrec.2.1, hrec.2.2]

/-- The `i`-th sleep of the loop (0-indexed) is the starting delay times
`2 ^ i`. -/
theorem reconnectGo_sleeps_get (ok : Nat → Bool) (N : Nat) :
    ∀ (rem r d i : Nat),
      i < (McpClient.reconnectGo ok N r d rem).sleeps.length →
      (McpClient.reconnectGo ok N r d rem).sleeps[i]? = some (d * 2 ^ i) := by
  intro rem
  induction rem with
  | zero => intro r d i h; simp [McpClient.reconnectGo] at h
  | succ rem ih =>
    intro r d i h
    cases hr : ok r with
    | true => simp [reconnectGo_succ_pos ok N r d rem hr] at h
    | false =>
      simp only [reconnectGo_succ_neg ok N r d rem hr] at h ⊢
      cases i with
      | zero => simp
      | succ i =>
        simp only [List.length_cons] at h
        have hrec := ih (r + 1) (d * 2) i (by omega)
        simp only [List.getElem?_cons_succ]
        rw [hrec]
        congr 1
        ring

/-- C5: the client's reconnect policy. The defaults are N = 5 attempts
and a base delay of 1000 ms. For every attempt oracle and configuration:
at most N connect attempts are issued; if the first success is attempt
`k` (0-indexed, i.e. the claim's (k+1)-st attempt), the call returns
success at once having made exactly `k + 1` attempts and `k` sleeps; if
all N attempts fail the call returns the terminal error naming the
exhausted attempt count, having made exactly N attempts and no more; the
delay slept after the `i`-th failed attempt is `base * 2 ^ i`, so each
delay is at least the configured base delay and consecutive delays are
non-decreasing, each doubling the previous one. -/
theorem reconnect_bounded_exponential_backoff :
    McpClient.defaultMaxRetries = 5 ∧ McpClient.defaultBaseDelayMs = 1000
    ∧ ∀ (ok : Nat → Bool) (N D : Nat),
      (McpClient.reconnect ok N D).attempts ≤ N
      ∧ (∀ k, k < N → ok k = true → (∀ j, j < k → ok j = false) →
          (McpClient.reconnect ok N D).result = .ok ()
          ∧ (McpClient.reconnect ok N D).attempts = k + 1
          ∧ (McpClient.reconnect ok N D).sleeps.length = k)
      ∧ ((∀ j, j < N → ok j = false) →
          (McpClient.reconnect ok N D).result
            = .error (McpClient.reconnectFailMsg N)
          ∧ (McpClient.reconnect ok N D).attempts = N
          ∧ (McpClient.reconnect ok N D).sleeps.length = N)
      ∧ (∀ i, i < (McpClient.reconnect ok N D).sleeps.length →
          (McpClient.reconnect ok N D).sleeps[i]? = some (D * 2 ^ i))
      ∧ (∀ i d1 d2, (McpClient.reconnect ok N D).sleeps[i]? = some d1 →
          (McpClient.reconnect ok N D).sleeps[i + 1]? = some d2 →
          D ≤ d1 ∧ d1 ≤ d2 ∧ d2 = 2 * d1) := by
  refine ⟨rfl, rfl, fun ok N D => ⟨?_, ?_, ?_, ?_, ?_⟩⟩
  · exact reconnectGo_attempts_le ok N N 0 D
  · intro k hk hok hfail
    exact reconnectGo_success ok N k N 0 D hk (by simpa using hok)
      (fun j hj => by simpa using hfail j hj)
  · intro hfail
    exact reconnectGo_all_fail ok N N 0 D
      (fun j hj => by simpa using hfail j hj)
  · intro i hi
    exact reconnectGo_sleeps_get ok N N 0 D i hi
  · intro i d1 d2 h1 h2
    have hi : i < (McpClient.reconnect ok N D).sleeps.length := by
      by_contra hc
      rw [List.getElem?_eq_none (Nat.le_of_not_lt hc)] at h1
      exact Option.noConfusion h1
    have hi1 : i + 1 < (McpClient.reconnect ok N D).sleeps.length := by
      by_contra hc
      rw [List.getElem?_eq_none (Nat.le_of_not_lt hc)] at h2
      exact Option.noConfusion h2
    have e1 : (McpClient.reconnect ok N D).sleeps[i]? = some (D * 2 ^ i) :=
      reconnectGo_sleeps_get ok N N 0 D i hi
    have e2 : (McpClient.reconnect ok N D).sleeps[i + 1]?
        = some (D * 2 ^ (i + 1)) :=
      reconnectGo_sleeps_get ok N N 0 D (i + 1) hi1
    rw [h1] at e1
    rw [h2] at e2
    have hd1 : d1 = D * 2 ^ i := by injection e1
    have hd2 : d2 = D * 2 ^ (i + 1) := by injection e2
    subst hd1
    subst hd2
    refine ⟨?_, ?_, by ring⟩
    · calc D = D * 1 := (mul_one D).symm
        _ ≤ D * 2 ^ i := Nat.mul_le_mul_left D Nat.one_le_two_pow
    · exact Nat.mul_le_mul_left D
        (Nat.pow_le_pow_right (by norm_num) (Nat.le_succ i))

/-- C5 witness: with attempts failing until the third succeeds
(`k = 2`), `reconnect 5 1000` succeeds after 3 attempts having slept
1000 ms then 2000 ms; with every attempt failing it returns the terminal
error after exactly 5 attempts. -/
theorem reconnect_bounded_exponential_backoff_witness :
    (McpClient.reconnect (fun k => decide (k = 2)) 5 1000).result = .ok ()
    ∧ (McpClient.reconnect (fun k => decide (k = 2)) 5 1000).attempts = 3
    ∧ (McpClient.reconnect (fun k => decide (k = 2)) 5 1000).sleeps.length = 2
    ∧ (McpClient.reconnect (fun k => decide (k = 2)) 5 1000).sleeps[0]?
        = some 1000
    ∧ (McpClient.reconnect (fun k => decide (k = 2)) 5 1000).sleeps[1]?
        = some 2000
    ∧ (McpClient.reconnect (fun _ => false) 5 1000).result
        = .error (McpClient.reconnectFailMsg 5)
    ∧ (McpClient.reconnect (fun _ => false) 5 1000).attempts = 5 := by
  have h := reconnect_bounded_exponential_backoff
  have hs := (h.2.2 (fun k => decide (k = 2)) 5 1000).2.1 2 (by decide)
    (by decide) (fun j hj => by simp; omega)
  have hget := (h.2.2 (fun k => decide (k = 2)) 5 1000).2.2.2.1
  have hf := (h.2.2 (fun _ => false) 5 1000).2.2.1 (fun j hj => rfl)
  refine ⟨hs.1, hs.2.1, hs.2.2, ?_, ?_, hf.1, hf.2.1⟩
  · have := hget 0 (by rw [hs.2.2]; norm_num)
    simpa using this
  · have := hget 1 (by rw [hs.2.2]; norm_num)
    simpa using this
